import Mathlib

/-!
Verification of the mp3 pipeline adapter (pipelined/mp3).

This file shallowly embeds the Go sources of the repository:
* the configuration validators (`supported.ChannelMode`, `supported.Quality`,
  `supported.BitRateMode`, `supported.vbrQuality`, `supported.bitRate`),
* the decode adapter (`Pump.Pump`'s returned closure, here `Pump.pumpFn`),
* the encode adapter (`Sink.Sink`, `Sink.SetQuality`, `Sink.Flush` and the
  returned consume closure, here `Sink.sinkFn`),
* the encoder-configuration helpers (`BitRateMode.apply`, `setChannelMode`).

Go `int` is modelled as `Int`, `float64` samples as `ℚ` (the conversions at
issue — scale/divide by 32768, clamping, little-endian int16 serialization —
are exact in ℚ), fallible calls return `Option` errors, and the external
decoder/encoder handles are modelled as explicit state (a list of remaining
int16 samples for the decoder; a written-bytes log plus closed flag for the
encoder).  Calls into the external lame encoder are logged as an explicit
`EncoderCall` trace so that "which configuration calls happen, in which
order" is provable.

The sample-format conversions live in the external `pipelined/signal`
package and the encoder stream state lives in the external `viert/lame`
package; the specification internalizes both (its "Conversion Utilities"
component and the encode-session lifecycle).  Those two pieces are modelled
from the spec and are marked `Modelled from the spec:` below; everything
else is translated directly from the Go sources.
-/

/-! ## List/string helpers used to state facts about error messages -/

/-- Whether the character list `p` occurs contiguously inside `l`
(used to check whether an error message mentions a phrase). -/
def hasInfixList (p : List Char) : List Char → Bool
  | [] => p.isEmpty
  | a :: l => p.isPrefixOf (a :: l) || hasInfixList p l

/-! ## Configuration and validation (part_000 of the sources)

`ChannelMode` is a Go `int` enum with `Mono = 0`, `Stereo = 1`,
`JointStereo = 2`; it is modelled as `Int` with three named constants. -/

/-- Constant `Mono ChannelMode = iota` (= 0). -/
def Mono : Int := 0

/-- Constant `Stereo` (= 1). -/
def Stereo : Int := 1

/-- Constant `JointStereo` (= 2). -/
def JointStereo : Int := 2

/-- Constant `MinBitRate = 8`: minimal bit rate for CBR/ABR sinks. -/
def MinBitRate : Int := 8

/-- Constant `MaxBitRate = 320`: maximal bit rate for CBR/ABR sinks. -/
def MaxBitRate : Int := 320

/-- The `BitRateMode` interface with its three implementations
`VBR{Quality int}`, `ABR{BitRate int}`, `CBR{BitRate int}`.
A `nil` interface value is modelled as `Option.none` at use sites. -/
inductive BitRateMode
  | VBR (quality : Int)
  | ABR (bitRate : Int)
  | CBR (bitRate : Int)
deriving DecidableEq

/-- The errors produced by the `fmt.Errorf` calls in the validators,
kept structured; `ConfigError.message` renders the exact format strings. -/
inductive ConfigError
  | channelModeUnsupported (v : Int)
  | qualityUnsupported (v : Int)
  | vbrQualityUnsupported (v : Int)
  | bitRateUnsupported (v : Int)
  | bitRateModeUnsupported (typeName : String)
deriving DecidableEq

/-- How `%v` renders a `ChannelMode` (the `stringer`-generated `String`
method: enum name for known values, `ChannelMode(n)` otherwise). -/
def channelModeStr (v : Int) : String :=
  if v = 0 then "Mono"
  else if v = 1 then "Stereo"
  else if v = 2 then "JointStereo"
  else "ChannelMode(" ++ toString v ++ ")"

/-- The rendered error messages, one per `fmt.Errorf` in part_000.
Groupings separate the variable-dependent prefix from the constant tail. -/
def ConfigError.message : ConfigError → String
  | ConfigError.channelModeUnsupported v =>
      "Channel mode " ++ (channelModeStr v ++ " is not supported")
  | ConfigError.qualityUnsupported v =>
      "Quality " ++ (toString v ++ " is not supported. Provide value between 0 and 9")
  | ConfigError.vbrQualityUnsupported v =>
      "VBR quality " ++ (toString v ++ " is not supported. Provide value between 0 and 9")
  | ConfigError.bitRateUnsupported v =>
      "Bit rate " ++ (toString v ++
        (" is not supported. Provide value between " ++
          (toString MinBitRate ++ (" and " ++ toString MaxBitRate))))
  | ConfigError.bitRateModeUnsupported t =>
      "Bit rate mode " ++ (t ++ " is not supported")

/-- Whether an error message states the valid range
(all range-carrying messages share the phrase "Provide value between"). -/
def namesValidRange (e : ConfigError) : Bool :=
  hasInfixList "Provide value between".toList e.message.toList

/-- The keys of the `Supported.channelModes` map (literal order). -/
def supported.channelModes : List Int := [JointStereo, Stereo, Mono]

/-- Validator `supported.ChannelMode`: map lookup; missing key yields the error. -/
def supported.ChannelMode (v : Int) : Option ConfigError :=
  if supported.channelModes.contains v then none
  else some (ConfigError.channelModeUnsupported v)

/-- Validator `supported.Quality`: the check `if v < 0 || v > 9` yields the error. -/
def supported.Quality (v : Int) : Option ConfigError :=
  if v < 0 ∨ v > 9 then some (ConfigError.qualityUnsupported v) else none

/-- Validator `supported.vbrQuality`: the check `if v < 0 || v > 9` yields the error. -/
def supported.vbrQuality (v : Int) : Option ConfigError :=
  if v < 0 ∨ v > 9 then some (ConfigError.vbrQualityUnsupported v) else none

/-- Validator `supported.bitRate`: the check `if v > MaxBitRate || v < MinBitRate` errors. -/
def supported.bitRate (v : Int) : Option ConfigError :=
  if v > MaxBitRate ∨ v < MinBitRate then some (ConfigError.bitRateUnsupported v)
  else none

/-- Validator `supported.BitRateMode`: type switch on the interface value; the
`default` arm (reached by a `nil` interface, modelled as `none`) formats
the dynamic type with `%T`. -/
def supported.BitRateMode : Option BitRateMode → Option ConfigError
  | some (BitRateMode.VBR q) => supported.vbrQuality q
  | some (BitRateMode.CBR r) => supported.bitRate r
  | some (BitRateMode.ABR r) => supported.bitRate r
  | none => some (ConfigError.bitRateModeUnsupported "<nil>")

/-! ## Sample-format conversions (external `pipelined/signal`) -/

/-- Truncation of a rational toward zero, the rounding Go's float-to-int
conversion applies. -/
def ratTrunc (x : ℚ) : Int :=
  if 0 ≤ x then ⌊x⌋ else ⌈x⌉

/-- Modelled from the spec: the float→int16 sample conversion performed by
`signal.Float64.AsInterInt(signal.BitDepth16, false)` (external
`pipelined/signal`, not in this repository's sources): "scale by 32768,
clamp to [−32768, 32767]". -/
def floatToInt16 (x : ℚ) : Int :=
  max (-32768) (min 32767 (ratTrunc (x * 32768)))

/-- Modelled from the spec: `signal.InterInt.AsFloat64` (external
`pipelined/signal`): "Each int16 sample converts to floating amplitude by
dividing by 32768; interleaved layout is converted to channel-major planar
layout", i.e. `output[c][i] = data[i*numChannels+c] / 32768`; the frame
count is the interleaved length divided by the channel count. -/
def InterInt.AsFloat64 (data : List Int) (numChannels : Nat) : List (List ℚ) :=
  (List.range numChannels).map fun c =>
    (List.range (data.length / numChannels)).map fun i =>
      ((data.getD (i * numChannels + c) 0 : Int) : ℚ) / 32768

/-- Modelled from the spec: `signal.Float64.AsInterInt(BitDepth16, false)`
(external `pipelined/signal`): planar→interleaved with the clamping sample
conversion, filling `ints[i*numChannels+j] = convert(b[j][i])`. -/
def Float64.AsInterInt (b : List (List ℚ)) : List Int :=
  (List.range ((b.headD []).length * b.length)).map fun k =>
    floatToInt16 ((b.getD (k % b.length) []).getD (k / b.length) 0)

/-- Go's `int16(n)` conversion: truncate to 16 bits, two's complement
(`%` on `Int` is the always-nonnegative Euclidean remainder). -/
def int16OfInt (n : Int) : Int :=
  (n + 32768) % 65536 - 32768

/-- Serialization `binary.Write(buf, binary.LittleEndian, int16v)`: the two bytes of the
16-bit two's-complement representation, least significant first. -/
def int16LE (n : Int) : List Int :=
  [n % 65536 % 256, n % 65536 / 256]

/-- Reading back a little-endian signed 16-bit value from its two bytes
(used to state that the serialization is faithful). -/
def decodeInt16LE (bs : List Int) : Int :=
  if 32768 ≤ bs.getD 0 0 + 256 * bs.getD 1 0 then
    bs.getD 0 0 + 256 * bs.getD 1 0 - 65536
  else bs.getD 0 0 + 256 * bs.getD 1 0

/-- The byte stream the consume closure builds from one floating buffer:
`AsInterInt`, then each entry cast with `int16(...)` and written
little-endian into the scratch `bytes.Buffer` (mp3.go lines 144-151). -/
def encodeBytes (b : List (List ℚ)) : List Int :=
  ((Float64.AsInterInt b).map int16OfInt).flatMap int16LE

/-- Frame count of a planar buffer (`signal` uses the first channel). -/
def bufFrames (b : List (List ℚ)) : Nat := (b.headD []).length

/-! ## Decode adapter (`Pump.Pump`'s closure, mp3.go lines 72-107) -/

/-- Errors the produce closure can return: `io.EOF` (the EndOfStream
signal) and `io.ErrUnexpectedEOF` (partial buffer).  Fatal decoder errors
are not modelled: the decoder model below only ever reports clean EOF. -/
inductive PumpErr
  | eof
  | unexpectedEOF
deriving DecidableEq

/-- State threaded through produce calls: the int16 samples the external
decoder can still yield (each `binary.Read` of two little-endian bytes
yields one), plus instrumentation: how many reads were issued to the
decoder and which `make([]int, _)` allocations happened. -/
structure PumpState where
  stream : List Int
  reads : Nat
  allocs : List Nat
deriving DecidableEq

/-- The state after one produce call: the loop consumed
`min(size, available)` samples where `size = bufferSize * numChannels`
(`numChannels = 2`); a full loop issues `size` reads, a short one issues
one extra read that reports EOF; `ints := make([]int, size)` allocates
unconditionally at the top of the closure. -/
def Pump.nextState (bufferSize : Nat) (s : PumpState) : PumpState :=
  ⟨s.stream.drop (bufferSize * 2),
   s.reads + (if bufferSize * 2 ≤ s.stream.length then bufferSize * 2
              else s.stream.length + 1),
   s.allocs ++ [bufferSize * 2]⟩

/-- The closure returned by `Pump.Pump` (mp3.go lines 72-107): read up to
`size = bufferSize * 2` samples; `read == 0` yields `(nil, io.EOF)`;
otherwise the prefix `ints[:read]` is converted with `AsFloat64`; the
source's final check is literally `read != bufferSize` (samples vs
frames), deciding between `io.ErrUnexpectedEOF` and a clean return. -/
def Pump.pumpFn (bufferSize : Nat) (s : PumpState) :
    (Option (List (List ℚ)) × Option PumpErr) × PumpState :=
  if (s.stream.take (bufferSize * 2)).length = 0 then
    ((none, some PumpErr.eof), Pump.nextState bufferSize s)
  else if (s.stream.take (bufferSize * 2)).length ≠ bufferSize then
    ((some (InterInt.AsFloat64 (s.stream.take (bufferSize * 2)) 2),
      some PumpErr.unexpectedEOF), Pump.nextState bufferSize s)
  else
    ((some (InterInt.AsFloat64 (s.stream.take (bufferSize * 2)) 2), none),
     Pump.nextState bufferSize s)

/-- Driving loop: call the produce closure repeatedly, stopping after the
first call made on an exhausted stream (fuel-indexed for termination). -/
def Pump.pumpRunFuel (bufferSize : Nat) :
    Nat → PumpState → List (Option (List (List ℚ)) × Option PumpErr)
  | 0, _ => []
  | fuel + 1, s =>
      if s.stream = [] ∨ bufferSize = 0 then [(Pump.pumpFn bufferSize s).1]
      else (Pump.pumpFn bufferSize s).1 ::
        Pump.pumpRunFuel bufferSize fuel (Pump.pumpFn bufferSize s).2

/-- The full call trace of the produce closure over a decoder stream,
up to and including the first `EndOfStream` result. -/
def Pump.pumpRun (bufferSize : Nat) (s : PumpState) :
    List (Option (List (List ℚ)) × Option PumpErr) :=
  Pump.pumpRunFuel bufferSize (s.stream.length + 1) s

/-- Whether an error value is the `EndOfStream` signal (`io.EOF`). -/
def isEOSErr : Option PumpErr → Bool
  | some PumpErr.eof => true
  | _ => false

/-- The shape of one produce result: frame count of the buffer, if any,
and whether the result is `EndOfStream`. -/
def resShape (r : Option (List (List ℚ)) × Option PumpErr) :
    Option Nat × Bool :=
  (r.1.map bufFrames, isEOSErr r.2)

/-- The shape the trace should have for a stream of `F` frames and request
size `N`: full `N`-frame buffers, a final partial buffer of `F mod N`
frames when `F` is not a multiple of `N`, then one `EndOfStream`. -/
def expectedShape (N F : Nat) : List (Option Nat × Bool) :=
  if h1 : F = 0 ∨ N = 0 then [(none, true)]
  else if h2 : F ≤ N then [(some F, false), (none, true)]
  else (some N, false) :: expectedShape N (F - N)
termination_by F
decreasing_by omega

/-! ## Encode adapter (`Sink`, mp3.go lines 110-157 and 186-196) -/

/-- The lame channel-mode constants used by `Encoder.SetMode`. -/
inductive LameMode
  | jointStereo
  | stereo
  | mono
deriving DecidableEq

/-- The lame VBR-mode constants used by `Encoder.SetVBR`. -/
inductive VbrMode
  | vbrOff
  | vbrMtrh
  | vbrAbr
deriving DecidableEq

/-- One call into the external lame encoder, logged in order. -/
inductive EncoderCall
  | newWriter
  | setVBR (m : VbrMode)
  | setVBRQuality (q : Int)
  | setVBRAverageBitRate (r : Int)
  | setBitrate (r : Int)
  | setQuality (q : Int)
  | setMode (m : LameMode)
  | setInSamplerate (r : Int)
  | setNumChannels (n : Int)
  | initParams
deriving DecidableEq

/-- Whether an encoder call is a `SetMode` (channel mode) call. -/
def isSetMode : EncoderCall → Bool
  | EncoderCall.setMode _ => true
  | _ => false

/-- The `apply` methods of `VBR`/`ABR`/`CBR` (mp3.go lines 159-184):
which encoder calls each bit-rate mode issues. -/
def BitRateMode.apply : BitRateMode → List EncoderCall
  | BitRateMode.VBR q =>
      [EncoderCall.setVBR VbrMode.vbrMtrh, EncoderCall.setVBRQuality q]
  | BitRateMode.ABR r =>
      [EncoderCall.setVBR VbrMode.vbrAbr, EncoderCall.setVBRAverageBitRate r]
  | BitRateMode.CBR r =>
      [EncoderCall.setVBR VbrMode.vbrOff, EncoderCall.setBitrate r]

/-- Helper `setChannelMode` (mp3.go lines 187-196): a switch with no default —
values outside the three enumerated modes issue no call at all. -/
def setChannelMode (cm : Int) : List EncoderCall :=
  if cm = JointStereo then [EncoderCall.setMode LameMode.jointStereo]
  else if cm = Stereo then [EncoderCall.setMode LameMode.stereo]
  else if cm = Mono then [EncoderCall.setMode LameMode.mono]
  else []

/-- The `Sink` component's configuration fields (embedded `BitRateMode`
and `ChannelMode`, plus the optional quality set by `SetQuality`). -/
structure Sink where
  bitRateMode : BitRateMode
  channelMode : Int
  quality : Option Int
deriving DecidableEq

/-- Method `Sink.SetQuality` (mp3.go lines 127-129): stores the value with no
guard and no clamping. -/
def Sink.SetQuality (s : Sink) (q : Int) : Sink :=
  { s with quality := some q }

/-- Method `Sink.Sink` (mp3.go lines 132-143): allocates the lame writer first
(`lame.NewWriter`), then issues the configuration calls in source order,
and never returns an error (the Go signature's error result is always
`nil`); no validator is consulted. -/
def Sink.Sink (s : Sink) (sampleRate numChannels : Int) :
    List EncoderCall × Option ConfigError :=
  (EncoderCall.newWriter ::
    (s.bitRateMode.apply ++
      ((match s.quality with
        | some q => [EncoderCall.setQuality q]
        | none => []) ++
        (setChannelMode s.channelMode ++
          [EncoderCall.setInSamplerate sampleRate,
           EncoderCall.setNumChannels numChannels,
           EncoderCall.initParams]))), none)

/-- Modelled from the spec: the encode-session stream state, which in the
code lives inside the external `viert/lame` writer (not in this
repository's sources): a closed flag and the accepted bytes.  Per §4.2 a
second close, or a write after close, fails with `ErrClosedStream`. -/
structure LameWriter where
  closed : Bool
  written : List Int
deriving DecidableEq

/-- The misuse error of §4.2/§7: operation on a finalized session. -/
inductive StreamErr
  | errClosedStream
deriving DecidableEq

/-- Modelled from the spec: closing the lame writer; a second close is a
usage error (`ErrClosedStream`) with no side effects. -/
def LameWriter.close (w : LameWriter) : LameWriter × Option StreamErr :=
  if w.closed then (w, some StreamErr.errClosedStream)
  else ({ w with closed := true }, none)

/-- Modelled from the spec: writing bytes to the lame writer; writing
after close is a usage error (`ErrClosedStream`) with no side effects. -/
def LameWriter.write (w : LameWriter) (bytes : List Int) :
    LameWriter × Option StreamErr :=
  if w.closed then (w, some StreamErr.errClosedStream)
  else ({ w with written := w.written ++ bytes }, none)

/-- Method `Sink.Flush` (mp3.go lines 120-122): delegates to `s.w.Close()`. -/
def Sink.Flush (w : LameWriter) : LameWriter × Option StreamErr :=
  w.close

/-- The consume closure returned by `Sink.Sink` (mp3.go lines 144-156):
convert the buffer, serialize it little-endian into a fresh scratch
buffer, and write the bytes to the lame writer. -/
def Sink.sinkFn (w : LameWriter) (b : List (List ℚ)) :
    LameWriter × Option StreamErr :=
  w.write (encodeBytes b)

/-! ## Helper lemmas about prefixes and infixes of messages -/

/-- Appending strings appends their character lists. -/
theorem stringToList_append (s t : String) :
    (s ++ t).toList = s.toList ++ t.toList :=
  String.data_append s t

/-- A list is a Boolean prefix of itself followed by anything. -/
theorem isPrefixOf_self_append (p l : List Char) :
    p.isPrefixOf (p ++ l) = true := by
  induction p with
  | nil => simp [List.isPrefixOf]
  | cons a p ih => simp [List.isPrefixOf, ih]

/-- An infix of `m` is an infix of `l ++ m`. -/
theorem hasInfixList_append_right (p l m : List Char)
    (h : hasInfixList p m = true) : hasInfixList p (l ++ m) = true := by
  induction l with
  | nil => exact h
  | cons a l ih =>
      show (p.isPrefixOf (a :: (l ++ m)) || hasInfixList p (l ++ m)) = true
      rw [ih]
      exact Bool.or_true _

/-- The out-of-range VBR-quality error message does state the range. -/
theorem vbrQualityErr_names_range (q : Int) :
    namesValidRange (ConfigError.vbrQualityUnsupported q) = true := by
  show hasInfixList "Provide value between".toList
    ("VBR quality " ++ (toString q ++
      " is not supported. Provide value between 0 and 9")).toList = true
  rw [stringToList_append, stringToList_append]
  exact hasInfixList_append_right _ _ _
    (hasInfixList_append_right _ _ _ (by decide))

/-- The out-of-range bit-rate error message does state the range. -/
theorem bitRateErr_names_range (r : Int) :
    namesValidRange (ConfigError.bitRateUnsupported r) = true := by
  show hasInfixList "Provide value between".toList
    ("Bit rate " ++ (toString r ++
      (" is not supported. Provide value between " ++
        (toString MinBitRate ++ (" and " ++ toString MaxBitRate))))).toList = true
  rw [stringToList_append, stringToList_append]
  exact hasInfixList_append_right _ _ _
    (hasInfixList_append_right _ _ _ (by decide))

/-- The channel-mode error message always starts with the field name. -/
theorem channelModeErr_message_field (c : Int) :
    ("Channel mode".toList).isPrefixOf
      (ConfigError.channelModeUnsupported c).message.toList = true := by
  have h1 : ("Channel mode " : String) = "Channel mode" ++ " " := by decide
  show ("Channel mode".toList).isPrefixOf
    ("Channel mode " ++ (channelModeStr c ++ " is not supported")).toList = true
  rw [h1, stringToList_append, stringToList_append, List.append_assoc]
  exact isPrefixOf_self_append _ _

/-! ## Claim C1 -/

/-- Claim C1 (amended): the pure validators accept exactly the claimed
sets — `supported.BitRateMode` accepts iff CBR/ABR with rate in [8,320] or
VBR with quality in [0,9], and `supported.ChannelMode` accepts iff the
mode is Mono, Stereo or JointStereo.  Every rejection yields an error
naming the offending field, and the out-of-range bit-rate / VBR-quality
errors also name the valid range; but (contrary to the claim as stated)
the channel-mode and unknown/nil-bit-rate-mode errors do not state the
valid range (see the counterexample). -/
theorem C1_validator_characterization (v : Option BitRateMode) (c : Int) :
    (supported.BitRateMode v = none ↔
      (match v with
       | some (BitRateMode.VBR q) => 0 ≤ q ∧ q ≤ 9
       | some (BitRateMode.ABR r) => 8 ≤ r ∧ r ≤ 320
       | some (BitRateMode.CBR r) => 8 ≤ r ∧ r ≤ 320
       | none => False)) ∧
    (supported.ChannelMode c = none ↔
      (c = Mono ∨ c = Stereo ∨ c = JointStereo)) ∧
    (∀ e, supported.ChannelMode c = some e →
      ("Channel mode".toList).isPrefixOf e.message.toList = true) ∧
    (∀ e, supported.BitRateMode v = some e → v.isSome = true →
      namesValidRange e = true) := by
  refine ⟨?_, ?_, ?_, ?_⟩
  · rcases v with _ | brm
    · simp [supported.BitRateMode]
    · rcases brm with q | r | r <;>
        simp only [supported.BitRateMode, supported.vbrQuality,
          supported.bitRate, MinBitRate, MaxBitRate] <;>
        split_ifs with h <;> simp <;> omega
  · simp only [supported.ChannelMode, supported.channelModes, Mono, Stereo,
      JointStereo]
    split_ifs with h
    · simp only [true_iff]
      have hc : c ∈ [(2 : Int), 1, 0] := List.elem_iff.mp h
      simp only [List.mem_cons, List.mem_singleton] at hc
      tauto
    · simp only [false_iff]
      intro hc
      apply h
      apply List.elem_iff.mpr
      simp only [List.mem_cons, List.mem_singleton]
      tauto
  · intro e he
    unfold supported.ChannelMode at he
    split at he
    · exact absurd he (by simp)
    · cases he
      exact channelModeErr_message_field c
  · intro e he hv
    rcases v with _ | brm
    · simp at hv
    · rcases brm with q | r | r
      · simp only [supported.BitRateMode, supported.vbrQuality] at he
        split at he
        · cases he
          exact vbrQualityErr_names_range q
        · cases he
      · simp only [supported.BitRateMode, supported.bitRate] at he
        split at he
        · cases he
          exact bitRateErr_names_range r
        · cases he
      · simp only [supported.BitRateMode, supported.bitRate] at he
        split at he
        · cases he
          exact bitRateErr_names_range r
        · cases he

/-- Claim C1 witness: the characterization applied at concrete values
(valid VBR 3, valid channel mode Stereo, rejected channel mode 7,
rejected VBR quality 12). -/
theorem C1_validator_characterization_witness :
    supported.BitRateMode (some (BitRateMode.VBR 3)) = none ∧
    supported.ChannelMode 1 = none ∧
    ("Channel mode".toList).isPrefixOf
      (ConfigError.channelModeUnsupported 7).message.toList = true ∧
    namesValidRange (ConfigError.vbrQualityUnsupported 12) = true := by
  refine ⟨?_, ?_, ?_, ?_⟩
  · exact (C1_validator_characterization (some (BitRateMode.VBR 3)) 1).1.mpr
      (by constructor <;> decide)
  · exact (C1_validator_characterization (some (BitRateMode.VBR 3)) 1).2.1.mpr
      (Or.inr (Or.inl (by decide)))
  · exact (C1_validator_characterization none 7).2.2.1
      (ConfigError.channelModeUnsupported 7) (by decide)
  · exact (C1_validator_characterization (some (BitRateMode.VBR 12)) 7).2.2.2
      (ConfigError.vbrQualityUnsupported 12) (by decide) (by decide)

/-- Claim C1 counterexample: the channel-mode rejection for mode 5 and the
nil-bit-rate-mode rejection name the offending field but their messages
contain no statement of the valid range/set, refuting "yields an error
naming the offending field and its valid range" for those cases. -/
theorem C1_counterexample :
    supported.ChannelMode 5 = some (ConfigError.channelModeUnsupported 5) ∧
    namesValidRange (ConfigError.channelModeUnsupported 5) = false ∧
    supported.BitRateMode none =
      some (ConfigError.bitRateModeUnsupported "<nil>") ∧
    namesValidRange (ConfigError.bitRateModeUnsupported "<nil>") = false := by
  refine ⟨by decide, by decide, rfl, by decide⟩

/-! ## Claim C4 -/

/-- Claim C4 counterexample: opening the sink with the invalid bit-rate
mode `VBR 42` (rejected by the standalone validator) allocates the lame
writer and returns no error at all — validation does not run before
(or after) allocation. -/
theorem C4_counterexample :
    (supported.BitRateMode (some (BitRateMode.VBR 42))).isSome = true ∧
    (Sink.Sink ⟨BitRateMode.VBR 42, Stereo, none⟩ 44100 2).2 = none ∧
    EncoderCall.newWriter ∈
      (Sink.Sink ⟨BitRateMode.VBR 42, Stereo, none⟩ 44100 2).1 := by
  decide

/-- Claim C4 (amended): `Sink.Sink` performs no validation whatsoever:
for every configuration — valid or invalid — it returns no error, and the
lame writer allocation (`lame.NewWriter`) is the very first call, made
unconditionally.  The validators exist only as standalone functions that
the sink never consults. -/
theorem C4_no_validation (brm : BitRateMode) (cm : Int) (q : Option Int)
    (sr nc : Int) :
    (Sink.Sink ⟨brm, cm, q⟩ sr nc).2 = none ∧
    ((Sink.Sink ⟨brm, cm, q⟩ sr nc).1).head? = some EncoderCall.newWriter :=
  ⟨rfl, rfl⟩

/-! ## Claim C8 -/

/-- Claim C8 counterexample: the standalone validator rejects quality −1,
but a session configured through `SetQuality(-1)` opens with no error and
passes −1 to the encoder unchanged (in particular it is not clamped to 0):
there is no single uniform out-of-range policy across the call sites. -/
theorem C8_counterexample :
    (supported.Quality (-1)).isSome = true ∧
    (Sink.Sink ⟨BitRateMode.CBR 192, Stereo, some (-1)⟩ 44100 2).2 = none ∧
    EncoderCall.setQuality (-1) ∈
      (Sink.Sink ⟨BitRateMode.CBR 192, Stereo, some (-1)⟩ 44100 2).1 ∧
    EncoderCall.setQuality 0 ∉
      (Sink.Sink ⟨BitRateMode.CBR 192, Stereo, some (-1)⟩ 44100 2).1 := by
  decide

/-- Claim C8 (amended): quality 0 and 9 are accepted at every site, but
the sites disagree on out-of-range values: the standalone validator
accepts exactly [0,9] and rejects everything else, while `SetQuality`
stores any value unguarded and session configuration applies it to the
encoder unchanged, with no error and no clamping. -/
theorem C8_quality_policy (q : Int) (s : Sink) (sr nc : Int) :
    (supported.Quality q = none ↔ 0 ≤ q ∧ q ≤ 9) ∧
    (Sink.SetQuality s q).quality = some q ∧
    (Sink.Sink (Sink.SetQuality s q) sr nc).2 = none ∧
    EncoderCall.setQuality q ∈ (Sink.Sink (Sink.SetQuality s q) sr nc).1 := by
  refine ⟨?_, rfl, rfl, ?_⟩
  · simp only [supported.Quality]
    split_ifs with h <;> simp <;> omega
  · simp [Sink.Sink, Sink.SetQuality]

/-! ## Claim C10 -/

/-- Claim C10: for every channel-mode value outside {Mono, Stereo,
JointStereo}, `setChannelMode` issues no `SetMode` call at all (the switch
has no default arm), and the session open still succeeds with no error:
the out-of-range channel mode is silently ignored, not rejected. -/
theorem C10_channel_mode_ignored (cm : Int) (h0 : cm ≠ Mono)
    (h1 : cm ≠ Stereo) (h2 : cm ≠ JointStereo) (brm : BitRateMode)
    (q : Option Int) (sr nc : Int) :
    setChannelMode cm = [] ∧
    (Sink.Sink ⟨brm, cm, q⟩ sr nc).2 = none ∧
    ((Sink.Sink ⟨brm, cm, q⟩ sr nc).1).filter isSetMode = [] := by
  have hsc : setChannelMode cm = [] := by
    rw [setChannelMode, if_neg h2, if_neg h1, if_neg h0]
  refine ⟨hsc, rfl, ?_⟩
  cases brm <;> rcases q with _ | q <;>
    simp [Sink.Sink, BitRateMode.apply, hsc, isSetMode]

/-- Claim C10 witness: channel mode 5 with a CBR 192 configuration. -/
theorem C10_channel_mode_ignored_witness :
    setChannelMode 5 = [] ∧
    (Sink.Sink ⟨BitRateMode.CBR 192, 5, none⟩ 44100 2).2 = none ∧
    ((Sink.Sink ⟨BitRateMode.CBR 192, 5, none⟩ 44100 2).1).filter isSetMode
      = [] :=
  C10_channel_mode_ignored 5 (by decide) (by decide) (by decide)
    (BitRateMode.CBR 192) none 44100 2

/-! ## Claim C6 -/

/-- Claim C6: for an open session, the first finalize succeeds, a second
finalize returns `ErrClosedStream` with no state change, and a consume
after finalize also returns `ErrClosedStream` with no state change.
(The guarding closed flag lives in the modelled external lame writer.) -/
theorem C6_finalize_twice (w : LameWriter) (h : w.closed = false)
    (b : List (List ℚ)) :
    (Sink.Flush w).2 = none ∧
    Sink.Flush (Sink.Flush w).1 =
      ((Sink.Flush w).1, some StreamErr.errClosedStream) ∧
    Sink.sinkFn (Sink.Flush w).1 b =
      ((Sink.Flush w).1, some StreamErr.errClosedStream) := by
  simp [Sink.Flush, LameWriter.close, h, Sink.sinkFn, LameWriter.write]

/-- Claim C6 witness: a fresh writer and a one-sample buffer. -/
theorem C6_finalize_twice_witness :
    (Sink.Flush ⟨false, []⟩).2 = none ∧
    Sink.Flush (Sink.Flush ⟨false, []⟩).1 =
      ((Sink.Flush ⟨false, []⟩).1, some StreamErr.errClosedStream) ∧
    Sink.sinkFn (Sink.Flush ⟨false, []⟩).1 [[1]] =
      ((Sink.Flush ⟨false, []⟩).1, some StreamErr.errClosedStream) :=
  C6_finalize_twice ⟨false, []⟩ rfl [[1]]

/-! ## Conversion lemmas for the encode path (Claim C2) -/

/-- Indexing a map over `List.range` with a default. -/
theorem getD_map_range {α : Type} (n k : Nat) (f : Nat → α) (d : α)
    (h : k < n) : ((List.range n).map f).getD k d = f k := by
  rw [List.getD_eq_getElem?_getD, List.getElem?_map, List.getElem?_range h]
  rfl

/-- Samples at or above full scale +1.0 clamp to 32767 (no wraparound). -/
theorem floatToInt16_ge_one (x : ℚ) (hx : 1 ≤ x) : floatToInt16 x = 32767 := by
  have h1 : (32768 : ℚ) ≤ x * 32768 := by nlinarith
  have h0 : (0 : ℚ) ≤ x * 32768 := by linarith
  have h2 : (32768 : Int) ≤ ratTrunc (x * 32768) := by
    rw [ratTrunc, if_pos h0]
    exact Int.le_floor.mpr (by exact_mod_cast h1)
  rw [floatToInt16]
  omega

/-- Samples at or below full scale −1.0 clamp to −32768 (no wraparound). -/
theorem floatToInt16_le_neg_one (x : ℚ) (hx : x ≤ -1) :
    floatToInt16 x = -32768 := by
  have h1 : x * 32768 ≤ -32768 := by nlinarith
  have h0 : ¬(0 : ℚ) ≤ x * 32768 := by linarith
  have h2 : ratTrunc (x * 32768) ≤ -32768 := by
    rw [ratTrunc, if_neg h0]
    exact Int.ceil_le.mpr (by exact_mod_cast h1)
  rw [floatToInt16]
  omega

/-- Every converted sample lies in the signed 16-bit range. -/
theorem floatToInt16_bounds (x : ℚ) :
    -32768 ≤ floatToInt16 x ∧ floatToInt16 x ≤ 32767 := by
  rw [floatToInt16]
  omega

/-- Go's `int16` cast is the identity on values already in range, so the
clamped samples are serialized unchanged (no wraparound). -/
theorem int16OfInt_eq_self (n : Int) (h1 : -32768 ≤ n) (h2 : n ≤ 32767) :
    int16OfInt n = n := by
  rw [int16OfInt]
  omega

/-- The two little-endian bytes decode back to the serialized value. -/
theorem int16LE_roundtrip (n : Int) (h1 : -32768 ≤ n) (h2 : n ≤ 32767) :
    decodeInt16LE (int16LE n) = n ∧ (int16LE n).length = 2 := by
  refine ⟨?_, rfl⟩
  rw [int16LE, decodeInt16LE]
  simp only [List.getD_cons_zero, List.getD_cons_succ]
  split_ifs <;> omega

/-- The interleaved buffer's entry at `i * numChannels + j` is the
converted sample `j` of frame `i`. -/
theorem asInterInt_getD (b : List (List ℚ)) (i j : Nat) (hj : j < b.length)
    (hi : i < (b.headD []).length) :
    (Float64.AsInterInt b).getD (i * b.length + j) 0 =
      floatToInt16 ((b.getD j []).getD i 0) := by
  have hC : 0 < b.length := Nat.lt_of_le_of_lt (Nat.zero_le j) hj
  have hk : i * b.length + j < (b.headD []).length * b.length := by
    calc i * b.length + j < i * b.length + b.length := by omega
      _ = (i + 1) * b.length := by ring
      _ ≤ (b.headD []).length * b.length := Nat.mul_le_mul_right _ hi
  rw [Float64.AsInterInt, getD_map_range _ _ _ _ hk]
  have e1 : (i * b.length + j) % b.length = j := by
    rw [Nat.mul_comm i b.length, Nat.mul_add_mod]
    exact Nat.mod_eq_of_lt hj
  have e2 : (i * b.length + j) / b.length = i := by
    rw [Nat.mul_comm i b.length, Nat.mul_add_div hC, Nat.div_eq_of_lt hj]
    omega
  rw [e1, e2]


/-- The `int16(...)` casts in the write loop change nothing: the byte
stream is the little-endian serialization of the clamped samples. -/
theorem encodeBytes_eq (b : List (List ℚ)) :
    encodeBytes b = (Float64.AsInterInt b).flatMap int16LE := by
  rw [encodeBytes]
  congr 1
  have h : ∀ x ∈ Float64.AsInterInt b, int16OfInt x = id x := by
    intro x hx
    rw [Float64.AsInterInt] at hx
    obtain ⟨k, _, rfl⟩ := List.mem_map.mp hx
    exact int16OfInt_eq_self _ (floatToInt16_bounds _).1 (floatToInt16_bounds _).2
  rw [List.map_congr_left h, List.map_id]

/-- A consume call on an open writer appends exactly the serialized bytes
of the given buffer to the encoder's input, with no error. -/
theorem sinkFn_writes (w : LameWriter) (b : List (List ℚ))
    (h : w.closed = false) :
    Sink.sinkFn w b = ({ w with written := w.written ++ encodeBytes b }, none) := by
  simp [Sink.sinkFn, LameWriter.write, h]

/-! ## Claim C2 -/

/-- Claim C2: the consume closure converts each floating sample by scaling
by 32768 and clamping to [−32768, 32767] — +1.0 maps to 32767, −1.0 to
−32768, out-of-range samples clamp (never wrap) — interleaves them at
position `i*numChannels+j`, serializes each as two faithful little-endian
bytes, and writes exactly those bytes to the encoder. -/
theorem C2_encode_conversion :
    floatToInt16 1 = 32767 ∧
    floatToInt16 (-1) = -32768 ∧
    (∀ x : ℚ, 1 ≤ x → floatToInt16 x = 32767) ∧
    (∀ x : ℚ, x ≤ -1 → floatToInt16 x = -32768) ∧
    (∀ x : ℚ, -32768 ≤ floatToInt16 x ∧ floatToInt16 x ≤ 32767) ∧
    (∀ (b : List (List ℚ)) (i j : Nat), j < b.length →
      i < (b.headD []).length →
      (Float64.AsInterInt b).getD (i * b.length + j) 0 =
        floatToInt16 ((b.getD j []).getD i 0)) ∧
    (∀ b : List (List ℚ),
      encodeBytes b = (Float64.AsInterInt b).flatMap int16LE) ∧
    (∀ n : Int, -32768 ≤ n → n ≤ 32767 →
      decodeInt16LE (int16LE n) = n ∧ (int16LE n).length = 2) ∧
    (∀ (w : LameWriter) (b : List (List ℚ)), w.closed = false →
      Sink.sinkFn w b =
        ({ w with written := w.written ++ encodeBytes b }, none)) :=
  ⟨floatToInt16_ge_one 1 le_rfl, floatToInt16_le_neg_one (-1) le_rfl,
   floatToInt16_ge_one, floatToInt16_le_neg_one, floatToInt16_bounds,
   fun b i j hj hi => asInterInt_getD b i j hj hi, encodeBytes_eq,
   int16LE_roundtrip, sinkFn_writes⟩

/-- Claim C2 witness: the conversion applied at overdriven samples ±2, a
concrete two-channel buffer, a concrete serialized value, and a concrete
open writer. -/
theorem C2_encode_conversion_witness :
    floatToInt16 2 = 32767 ∧
    floatToInt16 (-2) = -32768 ∧
    (Float64.AsInterInt [[1], [-1]]).getD (0 * 2 + 1) 0 =
      floatToInt16 ((([[1], [-1]] : List (List ℚ)).getD 1 []).getD 0 0) ∧
    decodeInt16LE (int16LE (-12345)) = -12345 ∧
    Sink.sinkFn ⟨false, []⟩ [[1]] =
      ({ closed := false, written := [] ++ encodeBytes [[1]] }, none) := by
  refine ⟨C2_encode_conversion.2.2.1 2 (by norm_num),
    C2_encode_conversion.2.2.2.1 (-2) (by norm_num),
    C2_encode_conversion.2.2.2.2.2.1 [[1], [-1]] 0 1 (by decide) (by decide),
    (C2_encode_conversion.2.2.2.2.2.2.2.1 (-12345) (by decide) (by decide)).1,
    C2_encode_conversion.2.2.2.2.2.2.2.2 ⟨false, []⟩ [[1]] rfl⟩

/-! ## Decode-adapter lemmas (Claims C3, C5, C7, C9) -/

/-- Every branch of a produce call ends in the same successor state. -/
theorem pumpFn_snd (N : Nat) (s : PumpState) :
    (Pump.pumpFn N s).2 = Pump.nextState N s := by
  rw [Pump.pumpFn]
  split
  · rfl
  · split <;> rfl

/-- A produce call on an exhausted stream returns `(nil, io.EOF)`. -/
theorem pumpFn_empty (N : Nat) (s : PumpState) (hs : s.stream = []) :
    (Pump.pumpFn N s).1 = (none, some PumpErr.eof) := by
  have h : (s.stream.take (N * 2)).length = 0 := by simp [hs]
  rw [Pump.pumpFn, if_pos h]

/-- A produce call on a nonempty stream returns a buffer holding the
conversion of the prefix actually read, and is never `EndOfStream`. -/
theorem pumpFn_pos (N : Nat) (s : PumpState) (hs : s.stream ≠ [])
    (hN : 0 < N) :
    (Pump.pumpFn N s).1.1 =
      some (InterInt.AsFloat64 (s.stream.take (N * 2)) 2) ∧
    isEOSErr (Pump.pumpFn N s).1.2 = false := by
  have hpos : 0 < s.stream.length := List.length_pos.mpr hs
  have hlen : (s.stream.take (N * 2)).length ≠ 0 := by
    rw [List.length_take]
    omega
  rw [Pump.pumpFn, if_neg hlen]
  split <;> exact ⟨rfl, rfl⟩

/-- The planar result of the modelled `AsFloat64` holds `len / 2` frames
in each channel. -/
theorem bufFrames_asFloat64 (data : List Int) :
    bufFrames (InterInt.AsFloat64 data 2) = data.length / 2 := by
  have h2 : List.range 2 = [0, 1] := rfl
  rw [bufFrames, InterInt.AsFloat64, h2]
  simp

/-- Whenever a produce call returns a buffer, that buffer is exactly the
conversion of the prefix of samples read from the decoder. -/
theorem pumpFn_buffer_eq (N : Nat) (s : PumpState) (b : List (List ℚ))
    (e : Option PumpErr) (hbe : (Pump.pumpFn N s).1 = (some b, e)) :
    b = InterInt.AsFloat64 (s.stream.take (N * 2)) 2 := by
  rw [Pump.pumpFn] at hbe
  split at hbe
  · simp at hbe
  · split at hbe <;>
    · have hb := congrArg Prod.fst hbe
      simp only at hb
      injection hb with hb
      exact hb.symm

/-- Evaluation rule for a short read: when the prefix is nonempty but its
sample count differs from `bufferSize`, the call returns the converted
prefix together with `io.ErrUnexpectedEOF`. -/
theorem pumpFn_short_eval (N : Nat) (s : PumpState)
    (h0 : (s.stream.take (N * 2)).length ≠ 0)
    (h1 : (s.stream.take (N * 2)).length ≠ N) :
    (Pump.pumpFn N s).1 =
      (some (InterInt.AsFloat64 (s.stream.take (N * 2)) 2),
       some PumpErr.unexpectedEOF) := by
  rw [Pump.pumpFn, if_neg h0, if_pos h1]

/-! ## Claim C9 -/

/-- Claim C9 counterexample: two consecutive produce calls with the same
requested size (1 frame) on a 2-frame stream both allocate a fresh
`ints` scratch slice of 2 ints — nothing is reused when consecutive calls
use the same frame count. -/
theorem C9_counterexample :
    ((Pump.pumpFn 1 ((Pump.pumpFn 1 ⟨[1, 2, 3, 4], 0, []⟩).2)).2).allocs
      = [2, 2] := by
  decide

/-- Claim C9 (amended): there are no cached scratch buffers: every produce
call allocates a fresh `ints` slice of `bufferSize*2` entries, whether or
not the requested size changed.  The valid-prefix half of the claim holds:
a buffer-producing call returns exactly the conversion of the prefix of
samples actually read (`ints[:read]`), never a stale tail. -/
theorem C9_scratch_buffers (N : Nat) (s : PumpState) :
    ((Pump.pumpFn N s).2).allocs = s.allocs ++ [N * 2] ∧
    (∀ b e, (Pump.pumpFn N s).1 = (some b, e) →
      b = InterInt.AsFloat64 (s.stream.take (N * 2)) 2 ∧
      bufFrames b = (s.stream.take (N * 2)).length / 2) := by
  constructor
  · rw [pumpFn_snd]
    rfl
  · intro b e hbe
    have hb := pumpFn_buffer_eq N s b e hbe
    exact ⟨hb, by rw [hb, bufFrames_asFloat64]⟩

/-- Claim C9 witness: the amended statement applied at size 1 on a
2-frame stream. -/
theorem C9_scratch_buffers_witness :
    ((Pump.pumpFn 1 ⟨[1, 2], 0, []⟩).2).allocs = [] ++ [1 * 2] ∧
    InterInt.AsFloat64 (([1, 2] : List Int).take (1 * 2)) 2 =
      InterInt.AsFloat64 (([1, 2] : List Int).take (1 * 2)) 2 ∧
    bufFrames (InterInt.AsFloat64 (([1, 2] : List Int).take (1 * 2)) 2) =
      (([1, 2] : List Int).take (1 * 2)).length / 2 := by
  obtain ⟨h1, h2⟩ := C9_scratch_buffers 1 ⟨[1, 2], 0, []⟩
  have h3 := h2 (InterInt.AsFloat64 (([1, 2] : List Int).take (1 * 2)) 2)
    (some PumpErr.unexpectedEOF)
    (pumpFn_short_eval 1 ⟨[1, 2], 0, []⟩ (by decide) (by decide))
  exact ⟨h1, rfl, h3.2⟩

/-! ## Claim C7 -/

/-- Claim C7 counterexample: with the stream already exhausted, a produce
call returns `EndOfStream` but still issues one more read to the decoder
(the read counter goes from 0 to 1): the adapter does touch the
underlying source again. -/
theorem C7_counterexample :
    (Pump.pumpFn 1 ⟨[], 0, []⟩).1 = (none, some PumpErr.eof) ∧
    ((Pump.pumpFn 1 ⟨[], 0, []⟩).2).reads = 1 := by
  decide

/-- Claim C7 (amended): once the stream is exhausted, every further
produce call returns `EndOfStream` with no buffer and leaves the stream
state empty — so `EndOfStream` is idempotent — but each such call issues
exactly one further read to the decoder, which merely reports EOF again;
there is no exhausted flag short-circuiting the underlying source. -/
theorem C7_eos_idempotent (N : Nat) (s : PumpState) (hN : 0 < N)
    (hs : s.stream = []) :
    (Pump.pumpFn N s).1 = (none, some PumpErr.eof) ∧
    ((Pump.pumpFn N s).2).stream = [] ∧
    ((Pump.pumpFn N s).2).reads = s.reads + 1 := by
  refine ⟨pumpFn_empty N s hs, ?_, ?_⟩
  · rw [pumpFn_snd, Pump.nextState]
    simp [hs]
  · rw [pumpFn_snd, Pump.nextState]
    simp only [hs, List.length_nil]
    rw [if_neg (by omega)]

/-- Claim C7 witness: a third call on an exhausted stream after 5 reads. -/
theorem C7_eos_idempotent_witness :
    (Pump.pumpFn 3 ⟨[], 5, [6]⟩).1 = (none, some PumpErr.eof) ∧
    ((Pump.pumpFn 3 ⟨[], 5, [6]⟩).2).stream = [] ∧
    ((Pump.pumpFn 3 ⟨[], 5, [6]⟩).2).reads = 5 + 1 :=
  C7_eos_idempotent 3 ⟨[], 5, [6]⟩ (by decide) rfl

/-! ## Claim C5 -/

/-- The planar sample formula of the modelled `AsFloat64`. -/
theorem asFloat64_getD (data : List Int) (c i : Nat) (hc : c < 2)
    (hi : i < data.length / 2) :
    ((InterInt.AsFloat64 data 2).getD c []).getD i 0 =
      ((data.getD (i * 2 + c) 0 : Int) : ℚ) / 32768 := by
  rw [InterInt.AsFloat64, getD_map_range _ _ _ _ hc, getD_map_range _ _ _ _ hi]

/-- Claim C5: each produced buffer is the channel-major planar conversion
of exactly the int16 samples read from the decoder — `output[c][i]` is the
`(i*2+c)`-th interleaved sample divided by 32768. -/
theorem C5_decode_conversion :
    (∀ (data : List Int) (c i : Nat), c < 2 → i < data.length / 2 →
      ((InterInt.AsFloat64 data 2).getD c []).getD i 0 =
        ((data.getD (i * 2 + c) 0 : Int) : ℚ) / 32768) ∧
    (∀ (N : Nat) (s : PumpState) (b : List (List ℚ)) (e : Option PumpErr),
      (Pump.pumpFn N s).1 = (some b, e) →
      b = InterInt.AsFloat64 (s.stream.take (N * 2)) 2) :=
  ⟨fun data c i hc hi => asFloat64_getD data c i hc hi,
   fun N s b e hbe => pumpFn_buffer_eq N s b e hbe⟩

/-- Claim C5 witness: sample 16384 at channel 0, frame 0 converts to 1/2,
and a produce call on a one-frame stream returns exactly the conversion of
its prefix. -/
theorem C5_decode_conversion_witness :
    ((InterInt.AsFloat64 [16384, -32768] 2).getD 0 []).getD 0 0 =
      ((([16384, -32768] : List Int).getD (0 * 2 + 0) 0 : Int) : ℚ) / 32768 ∧
    InterInt.AsFloat64 (([5, 6] : List Int).take (1 * 2)) 2 =
      InterInt.AsFloat64 (([5, 6] : List Int).take (1 * 2)) 2 := by
  refine ⟨C5_decode_conversion.1 [16384, -32768] 0 0 (by decide) (by decide), ?_⟩
  exact C5_decode_conversion.2 1 ⟨[5, 6], 0, []⟩
    (InterInt.AsFloat64 (([5, 6] : List Int).take (1 * 2)) 2)
    (some PumpErr.unexpectedEOF)
    (pumpFn_short_eval 1 ⟨[5, 6], 0, []⟩ (by decide) (by decide))

/-! ## Expected-shape lemmas (Claim C3) -/

/-- Unfolding `expectedShape`: exhausted or degenerate request. -/
theorem expectedShape_base (N F : Nat) (h : F = 0 ∨ N = 0) :
    expectedShape N F = [(none, true)] := by
  rw [expectedShape.eq_def, dif_pos h]

/-- Unfolding `expectedShape`: a final (possibly full) buffer. -/
theorem expectedShape_small (N F : Nat) (h1 : ¬(F = 0 ∨ N = 0))
    (h2 : F ≤ N) : expectedShape N F = [(some F, false), (none, true)] := by
  rw [expectedShape.eq_def, dif_neg h1, dif_pos h2]

/-- Unfolding `expectedShape`: a full buffer followed by the rest. -/
theorem expectedShape_step (N F : Nat) (h1 : ¬(F = 0 ∨ N = 0))
    (h2 : ¬F ≤ N) :
    expectedShape N F = (some N, false) :: expectedShape N (F - N) := by
  rw [expectedShape.eq_def, dif_neg h1, dif_neg h2]

/-- Lemma: `getLast?` skips the head whenever the tail is nonempty. -/
theorem getLast_cons_ne {α : Type} (a : α) (l : List α) (h : l ≠ []) :
    (a :: l).getLast? = l.getLast? := by
  cases l with
  | nil => exact absurd rfl h
  | cons b t => exact List.getLast?_cons_cons

/-- The expected shape is never empty. -/
theorem expectedShape_ne_nil (N F : Nat) : expectedShape N F ≠ [] := by
  by_cases h1 : F = 0 ∨ N = 0
  · rw [expectedShape_base N F h1]
    simp
  · by_cases h2 : F ≤ N
    · rw [expectedShape_small N F h1 h2]
      simp
    · rw [expectedShape_step N F h1 h2]
      simp

/-- The expected shape contains exactly one `EndOfStream` entry. -/
theorem expectedShape_count_eos : ∀ F N : Nat,
    List.countP (fun x => x.2) (expectedShape N F) = 1 := by
  intro F
  induction F using Nat.strong_induction_on with
  | _ F ih =>
    intro N
    by_cases h1 : F = 0 ∨ N = 0
    · rw [expectedShape_base N F h1]
      simp [List.countP_cons, List.countP_nil]
    · by_cases h2 : F ≤ N
      · rw [expectedShape_small N F h1 h2]
        simp [List.countP_cons, List.countP_nil]
      · rw [expectedShape_step N F h1 h2]
        rw [List.countP_cons_of_neg _ _ (by simp)]
        exact ih (F - N) (by omega) N

/-- The expected shape contains exactly `ceil(F/N)` buffer entries. -/
theorem expectedShape_count_buffers : ∀ F N : Nat, 0 < N → 0 < F →
    List.countP (fun x => !x.2) (expectedShape N F) = (F + N - 1) / N := by
  intro F
  induction F using Nat.strong_induction_on with
  | _ F ih =>
    intro N hN hF
    by_cases hFN : F ≤ N
    · rw [expectedShape_small N F (by omega) hFN]
      have hcount : List.countP (fun x => !x.2)
          [((some F : Option Nat), false), (none, true)] = 1 := by
        simp [List.countP_cons, List.countP_nil]
      rw [hcount]
      symm
      exact Nat.div_eq_of_lt_le (by omega) (by omega)
    · rw [expectedShape_step N F (by omega) hFN]
      rw [List.countP_cons_of_pos _ _ (by simp)]
      rw [ih (F - N) (by omega) N hN (by omega)]
      have h1 : F + N - 1 = (F - N + N - 1) + N := by omega
      rw [h1, Nat.add_div_right _ hN]

/-- The expected shape ends with its single `EndOfStream` entry. -/
theorem expectedShape_getLast : ∀ F N : Nat,
    (expectedShape N F).getLast? = some (none, true) := by
  intro F
  induction F using Nat.strong_induction_on with
  | _ F ih =>
    intro N
    by_cases h1 : F = 0 ∨ N = 0
    · rw [expectedShape_base N F h1]
      rfl
    · by_cases h2 : F ≤ N
      · rw [expectedShape_small N F h1 h2]
        rfl
      · rw [expectedShape_step N F h1 h2,
          getLast_cons_ne _ _ (expectedShape_ne_nil N (F - N))]
        exact ih (F - N) (by omega) N

/-- The last buffer entry of the expected shape has `F mod N` frames (or
`N` when `F` is a multiple of `N`). -/
theorem expectedShape_filter_buffers : ∀ F N : Nat, 0 < N → 0 < F →
    ((expectedShape N F).filter (fun x => !x.2)).getLast? =
      some (some (if F % N = 0 then N else F % N), false) := by
  intro F
  induction F using Nat.strong_induction_on with
  | _ F ih =>
    intro N hN hF
    by_cases hFN : F ≤ N
    · rw [expectedShape_small N F (by omega) hFN]
      have hfil : List.filter (fun x => !x.2)
          [((some F : Option Nat), false), (none, true)] = [(some F, false)] := by
        simp [List.filter]
      rw [hfil]
      have hval : (if F % N = 0 then N else F % N) = F := by
        rcases Nat.eq_or_lt_of_le hFN with hEq | hLt
        · rw [hEq]
          simp [Nat.mod_self]
        · have hmod : F % N = F := Nat.mod_eq_of_lt hLt
          rw [hmod, if_neg (by omega)]
      rw [hval]
      rfl
    · rw [expectedShape_step N F (by omega) hFN]
      rw [List.filter_cons_of_pos (by simp)]
      have hmod : F % N = (F - N) % N := Nat.mod_eq_sub_mod (by omega)
      rw [hmod]
      have hrest := ih (F - N) (by omega) N hN (by omega)
      have hne2 : (expectedShape N (F - N)).filter (fun x => !x.2) ≠ [] := by
        intro h0
        rw [h0] at hrest
        simp at hrest
      rw [getLast_cons_ne _ _ hne2]
      exact hrest

/-- The produce-call trace over a `2*F`-sample stream has exactly the
expected shape (full buffers of `N` frames, a final partial one, one
`EndOfStream`). -/
theorem pumpRunFuel_shape : ∀ F N : Nat, 0 < N →
    ∀ (s : PumpState) (fuel : Nat), s.stream.length = 2 * F →
    s.stream.length < fuel →
    (Pump.pumpRunFuel N fuel s).map resShape = expectedShape N F := by
  intro F
  induction F using Nat.strong_induction_on with
  | _ F ih =>
    intro N hN s fuel hlen hfuel
    cases fuel with
    | zero => omega
    | succ m =>
      by_cases hF : F = 0
      · have hs : s.stream = [] := by
          subst hF
          exact List.eq_nil_of_length_eq_zero (by omega)
        simp only [Pump.pumpRunFuel]
        rw [if_pos (Or.inl hs)]
        rw [hF, expectedShape_base N 0 (Or.inl rfl)]
        simp [resShape, pumpFn_empty N s hs, isEOSErr]
      · have hs : s.stream ≠ [] := by
          intro h
          rw [h, List.length_nil] at hlen
          omega
        simp only [Pump.pumpRunFuel]
        rw [if_neg (by push_neg; exact ⟨hs, by omega⟩)]
        rw [List.map_cons]
        obtain ⟨hb, he⟩ := pumpFn_pos N s hs hN
        have hhead : resShape (Pump.pumpFn N s).1 = (some (min N F), false) := by
          have h1 : (Pump.pumpFn N s).1.1.map bufFrames = some (min N F) := by
            rw [hb]
            rw [show (some (InterInt.AsFloat64 (s.stream.take (N * 2)) 2)).map
              bufFrames = some (bufFrames (InterInt.AsFloat64
                (s.stream.take (N * 2)) 2)) from rfl]
            rw [bufFrames_asFloat64, List.length_take, hlen]
            congr 1
            omega
          show ((Pump.pumpFn N s).1.1.map bufFrames,
            isEOSErr (Pump.pumpFn N s).1.2) = (some (min N F), false)
          rw [h1, he]
        have hs2 : (Pump.pumpFn N s).2.stream = s.stream.drop (N * 2) := by
          rw [pumpFn_snd]
          rfl
        have hlen2 : (Pump.pumpFn N s).2.stream.length = 2 * (F - min N F) := by
          rw [hs2, List.length_drop, hlen]
          omega
        have hfuel2 : (Pump.pumpFn N s).2.stream.length < m := by
          rw [hs2, List.length_drop, hlen]
          omega
        have htail := ih (F - min N F) (by omega) N hN _ m hlen2 hfuel2
        rw [hhead, htail]
        by_cases hFN : F ≤ N
        · have h1 : min N F = F := by omega
          rw [h1, expectedShape_small N F (by omega) hFN]
          rw [show F - F = 0 from by omega, expectedShape_base N 0 (Or.inl rfl)]
        · have h1 : min N F = N := by omega
          rw [h1, expectedShape_step N F (by omega) hFN]

/-! ## Claim C3 -/

/-- Claim C3: driving the produce closure over a decoder stream of `F > 0`
frames (`2*F` int16 samples) with request size `N > 0` until the first
`EndOfStream` yields a trace whose shape is `expectedShape N F`: it
contains exactly `ceil(F/N) = (F+N-1)/N` buffer results, exactly one
`EndOfStream`, placed last, and its last buffer holds `F mod N` frames
(or `N` frames when `F` is a multiple of `N`); a call that obtains zero
frames returns `EndOfStream` with no buffer. -/
theorem C3_decode_trace (N F : Nat) (hN : 0 < N) (hF : 0 < F)
    (s : PumpState) (hlen : s.stream.length = 2 * F) :
    (Pump.pumpRun N s).map resShape = expectedShape N F ∧
    List.countP (fun x => !x.2) (expectedShape N F) = (F + N - 1) / N ∧
    List.countP (fun x => x.2) (expectedShape N F) = 1 ∧
    (expectedShape N F).getLast? = some (none, true) ∧
    ((expectedShape N F).filter (fun x => !x.2)).getLast? =
      some (some (if F % N = 0 then N else F % N), false) ∧
    (∀ t : PumpState, t.stream = [] →
      (Pump.pumpFn N t).1 = (none, some PumpErr.eof)) := by
  refine ⟨?_, expectedShape_count_buffers F N hN hF,
    expectedShape_count_eos F N, expectedShape_getLast F N,
    expectedShape_filter_buffers F N hN hF,
    fun t ht => pumpFn_empty N t ht⟩
  rw [Pump.pumpRun]
  exact pumpRunFuel_shape F N hN s (s.stream.length + 1) hlen (by omega)

/-- Claim C3 witness: request size 2 over a 3-frame (6-sample) stream:
two buffers (2 frames, then 1 frame) and one `EndOfStream`. -/
theorem C3_decode_trace_witness :
    (Pump.pumpRun 2 ⟨[1, 2, 3, 4, 5, 6], 0, []⟩).map resShape =
      expectedShape 2 3 ∧
    List.countP (fun x => !x.2) (expectedShape 2 3) = (3 + 2 - 1) / 2 ∧
    List.countP (fun x => x.2) (expectedShape 2 3) = 1 ∧
    (expectedShape 2 3).getLast? = some (none, true) ∧
    ((expectedShape 2 3).filter (fun x => !x.2)).getLast? =
      some (some (if 3 % 2 = 0 then 2 else 3 % 2), false) ∧
    (Pump.pumpFn 2 ⟨[], 0, []⟩).1 = (none, some PumpErr.eof) := by
  obtain ⟨h1, h2, h3, h4, h5, h6⟩ :=
    C3_decode_trace 2 3 (by decide) (by decide) ⟨[1, 2, 3, 4, 5, 6], 0, []⟩ rfl
  exact ⟨h1, h2, h3, h4, h5, h6 ⟨[], 0, []⟩ rfl⟩
